import Mathlib

/-
Verification development for the robot-control TCP server (src/main.cpp).
The per-connection controller is shallowly embedded: payloads are lists of
byte values (Nat), C++ unsigned 16-bit arithmetic is Nat arithmetic mod 65536,
C++ signed `char` values are embedded through `scharVal`, and the fallible
operations return explicit result types.
-/

namespace TcpServer

/-- Server key constant (SERVER_KEY in the source). -/
def SERVER_KEY : Nat := 54621

/-- Client key constant (CLIENT_KEY in the source). -/
def CLIENT_KEY : Nat := 45328

/-- Normal receive timeout in seconds (TIMEOUT in the source). -/
def TIMEOUT : Nat := 1

/-- Extended receive timeout used while recharging (TIMEOUT_RECHARGING). -/
def TIMEOUT_RECHARGING : Nat := 5

/-- First terminator byte, the bell character 0x07. -/
def TERMINATING_FIRST_CHAR : Nat := 7

/-- Second terminator byte, the backspace character 0x08. -/
def TERMINATING_SECOND_CHAR : Nat := 8

/-- Outbound literal for a left turn (SERVER_TURN_LEFT). -/
def SERVER_TURN_LEFT : String := "103 TURN LEFT"

/-- Outbound literal for a right turn (SERVER_TURN_RIGHT). -/
def SERVER_TURN_RIGHT : String := "104 TURN RIGHT"

/-- Outbound literal for a logic error (SERVER_LOGIC_ERROR). -/
def SERVER_LOGIC_ERROR : String := "302 LOGIC ERROR"

/-- Payload cap used when reading the username (CLIENT_USERNAME_LENGTH). -/
def CLIENT_USERNAME_LENGTH : Nat := 10

/-- Payload cap used when reading the hash confirmation (CLIENT_CONFIRMATION_LENGTH). -/
def CLIENT_CONFIRMATION_LENGTH : Nat := 10

/-- Payload cap used when reading a move confirmation (CLIENT_OK_LENGTH). -/
def CLIENT_OK_LENGTH : Nat := 10

/-- The literal recharging marker (CLIENT_RECHARGING). -/
def CLIENT_RECHARGING : String := "RECHARGING"

/-- The literal full-power marker (CLIENT_FULL_POWER). -/
def CLIENT_FULL_POWER : String := "FULL POWER"

/-- Payload cap used when awaiting the full-power marker (CLIENT_FULL_POWER_LENGTH). -/
def CLIENT_FULL_POWER_LENGTH : Nat := 10

/-- Payload cap used when reading the secret message (CLIENT_MESSAGE_LENGTH). -/
def CLIENT_MESSAGE_LENGTH : Nat := 98

/-- Target x coordinate (TARGET_X). -/
def TARGET_X : Int := -2

/-- Target y coordinate (TARGET_Y). -/
def TARGET_Y : Int := 2

/-- Robot heading, from the Direction enum of the source. -/
inductive Direction where
  | UNKNOWN
  | UP
  | RIGHT
  | DOWN
  | LEFT
deriving DecidableEq, Repr

/-- Grid position, from the Position struct of the source. -/
structure Position where
  x : Int
  y : Int
deriving DecidableEq, Repr

/-- Value of a byte when stored in a C++ signed char on the target platform:
bytes at and above 0x80 are sign extended to negative values. -/
def scharVal (b : Nat) : Int := if b < 128 then (b : Int) else (b : Int) - 256

/-- One iteration of the hash loop: `result += it` on a uint16_t accumulator
with `it` a signed char, truncating back mod 2^16. -/
def hashStep (r b : Nat) : Nat := (((r : Int) + scharVal b) % 65536).toNat

/-- Embedding of ClientController::computeHash.  The accumulator `result` is a
uint16_t; each character of the value is added as a signed char, then the
result is multiplied by 1000 and the key is added, both truncating mod 2^16. -/
def computeHash (key : Nat) (value : List Nat) : Nat :=
  ((value.foldl hashStep 0 * 1000) % 65536 + key) % 65536

/-- Total of the signed char values of a byte string (analysis helper). -/
def signedByteSum (u : List Nat) : Int := (u.map scharVal).sum

/-- Hash formula exactly as the specification words it: the truncating 16-bit
sum of the raw (unsigned) byte values of the username, times 1000, plus the
key, modulo 65536.  Used only to compare the specified formula against
`computeHash` as embedded from the source. -/
def specHashUnsigned (key : Nat) (value : List Nat) : Nat :=
  ((value.foldl (fun r b => (r + b) % 65536) 0) * 1000 + key) % 65536

lemma hashStep_lt (r b : Nat) : hashStep r b < 65536 := by
  unfold hashStep
  have h0 : (0 : Int) ≤ ((r : Int) + scharVal b) % 65536 :=
    Int.emod_nonneg _ (by norm_num)
  have h1 : ((r : Int) + scharVal b) % 65536 < 65536 :=
    Int.emod_lt_of_pos _ (by norm_num)
  omega

lemma hash_foldl_emod (u : List Nat) : ∀ r : Nat, r < 65536 →
    ((u.foldl hashStep r : Nat) : Int) = ((r : Int) + (u.map scharVal).sum) % 65536 := by
  induction u with
  | nil =>
    intro r hr
    simp only [List.foldl_nil, List.map_nil, List.sum_nil, add_zero]
    rw [Int.emod_eq_of_lt (Int.natCast_nonneg r) (by exact_mod_cast hr)]
  | cons b t ih =>
    intro r hr
    simp only [List.foldl_cons, List.map_cons, List.sum_cons]
    rw [ih _ (hashStep_lt r b)]
    have h0 : (0 : Int) ≤ ((r : Int) + scharVal b) % 65536 :=
      Int.emod_nonneg _ (by norm_num)
    unfold hashStep
    rw [Int.toNat_of_nonneg h0, Int.emod_add_emod, add_assoc]

/-- C2 counterexample: for the one-byte username 0x80 the hash computed by the
code differs from the specified formula over raw unsigned byte values, because
the source adds the byte as a signed char. -/
theorem computeHash_differs_from_unsigned_formula :
    computeHash SERVER_KEY [128] ≠ specHashUnsigned SERVER_KEY [128] := by
  decide

/-- C2 amended: the server hash equals
(signed_sum(username) * 1000 + 54621) mod 65536 where each byte contributes its
signed char value (bytes at or above 0x80 contribute value minus 256); for
usernames whose bytes are all below 0x80 this agrees with the specified
unsigned formula. -/
theorem computeHash_signed_formula (u : List Nat) :
    (computeHash SERVER_KEY u : Int) = (signedByteSum u * 1000 + 54621) % 65536 ∧
    ((∀ b ∈ u, b < 128) → computeHash SERVER_KEY u = specHashUnsigned SERVER_KEY u) := by
  constructor
  · unfold computeHash SERVER_KEY signedByteSum
    have h := hash_foldl_emod u 0 (by norm_num)
    simp only [Nat.cast_zero, zero_add] at h
    push_cast
    rw [h]
    omega
  · intro hascii
    unfold computeHash specHashUnsigned
    have key : ∀ t : List Nat, (∀ b ∈ t, b < 128) → ∀ r : Nat,
        t.foldl hashStep r = t.foldl (fun r b => (r + b) % 65536) r := by
      intro t
      induction t with
      | nil => intro _ r; rfl
      | cons b s ih =>
        intro h r
        simp only [List.foldl_cons]
        have hb : b < 128 := h b (List.mem_cons_self b s)
        have hstep : hashStep r b = (r + b) % 65536 := by
          unfold hashStep scharVal
          rw [if_pos hb]
          omega
        rw [hstep]
        exact ih (fun c hc => h c (List.mem_cons_of_mem b hc)) _
    rw [key u hascii 0, Nat.mod_add_mod]

/-- C2 amended witness: instantiation at the username "Ab" (bytes 65, 98). -/
theorem computeHash_signed_formula_witness :
    (computeHash SERVER_KEY [65, 98] : Int)
        = (signedByteSum [65, 98] * 1000 + 54621) % 65536 ∧
    computeHash SERVER_KEY [65, 98] = specHashUnsigned SERVER_KEY [65, 98] :=
  ⟨(computeHash_signed_formula [65, 98]).1,
   (computeHash_signed_formula [65, 98]).2 (by decide)⟩

/-- Recognizer state of the frame reader (ReadMessageState in the source):
OPEN means the last byte was an ordinary character, CLOSE means the last byte
was the first terminator byte. -/
inductive ReadMessageState where
  | OPEN
  | CLOSE
deriving DecidableEq, Repr

/-- Result of one call to the frame reader.  `ok` carries the payload and the
bytes left unread on the stream; `err301` is the oversize abort (the source
sends 301 SYNTAX ERROR and throws); `timeout` models the stream running dry
(read returns -1 and the source throws without any outbound frame). -/
inductive ReadResult where
  | ok (payload : List Nat) (rest : List Nat)
  | err301
  | timeout
deriving DecidableEq, Repr

/-- Processing of a single byte by the switch statement of
ClientController::readFromSocket.  Returns the new recognizer state, the new
message accumulator and the messageDone flag. -/
def stepByte (st : ReadMessageState) (b : Nat) (acc : List Nat) :
    ReadMessageState × List Nat × Bool :=
  if b = TERMINATING_FIRST_CHAR then
    match st with
    | .OPEN => (.CLOSE, acc, false)
    | .CLOSE => (.CLOSE, acc ++ [TERMINATING_FIRST_CHAR], false)
  else if b = TERMINATING_SECOND_CHAR then
    match st with
    | .OPEN => (.OPEN, acc ++ [TERMINATING_SECOND_CHAR], false)
    | .CLOSE => (.CLOSE, acc, true)
  else
    match st with
    | .OPEN => (.OPEN, acc ++ [b], false)
    | .CLOSE => (.OPEN, acc ++ [TERMINATING_FIRST_CHAR, b], false)

/-- Embedding of the read loop of ClientController::readFromSocket.  The
counter `m` is the uint16_t msgLength, incremented mod 2^16 on every read;
before the byte is examined the loop aborts when
maxMsgSize + 2 < msgLength, and after the switch it aborts when
msgLength = maxMsgSize + 1 with the recognizer still OPEN, or
msgLength = maxMsgSize + 2 with the message not yet done. -/
def readLoop : List Nat → ReadMessageState → Nat → List Nat → Nat → ReadResult
  | [], _, m, _, maxMsgSize =>
      if maxMsgSize + 2 < (m + 1) % 65536 then .err301 else .timeout
  | b :: rest, st, m, acc, maxMsgSize =>
      if maxMsgSize + 2 < (m + 1) % 65536 then .err301
      else
        match stepByte st b acc with
        | (_, acc', true) => .ok acc' rest
        | (st', acc', false) =>
          if (maxMsgSize + 1 = (m + 1) % 65536 ∧ st' = .OPEN)
              ∨ maxMsgSize + 2 = (m + 1) % 65536 then .err301
          else readLoop rest st' ((m + 1) % 65536) acc' maxMsgSize

/-- Embedding of ClientController::readFromSocket on a byte stream. -/
def readFromSocket (input : List Nat) (maxMsgSize : Nat) : ReadResult :=
  readLoop input .OPEN 0 [] maxMsgSize

/-- Wire bytes produced by ClientController::sendResponse: the payload
followed by the two terminator bytes. -/
def sendResponse (msg : List Nat) : List Nat :=
  msg ++ [TERMINATING_FIRST_CHAR, TERMINATING_SECOND_CHAR]

/-- Reader with the size policy exactly as the specification words it: an
unbounded in-flight byte count, aborting precisely when maxPayload + 1 bytes
have been read with the recognizer still OPEN, or when maxPayload + 2 bytes
have been read without the frame completing.  The byte recognizer itself is
`stepByte`, shared with the source embedding; only the size policy follows
the specification text.  Used to compare the source reader against the
specified abort policy. -/
def specReadLoop : List Nat → ReadMessageState → Nat → List Nat → Nat → ReadResult
  | [], _, _, _, _ => .timeout
  | b :: rest, st, n, acc, maxPayload =>
      match stepByte st b acc with
      | (_, acc', true) => .ok acc' rest
      | (st', acc', false) =>
        if (maxPayload + 1 = n + 1 ∧ st' = .OPEN) ∨ maxPayload + 2 = n + 1 then .err301
        else specReadLoop rest st' (n + 1) acc' maxPayload

/-- Top level of the specification-worded reader. -/
def readFrameSpec (input : List Nat) (maxPayload : Nat) : ReadResult :=
  specReadLoop input .OPEN 0 [] maxPayload

/-- Whether a byte string contains the two-byte terminator sequence as a
contiguous pair. -/
def hasPair : List Nat → Bool
  | a :: b :: rest =>
      if a = TERMINATING_FIRST_CHAR ∧ b = TERMINATING_SECOND_CHAR then true
      else hasPair (b :: rest)
  | _ => false

/-- Pending bytes represented by a recognizer state: in state CLOSE one first
terminator byte has been seen but not yet appended. -/
def pend : ReadMessageState → List Nat
  | .OPEN => []
  | .CLOSE => [TERMINATING_FIRST_CHAR]

lemma hasPair_cons_false {a : Nat} {l : List Nat} (h : hasPair (a :: l) = false) :
    hasPair l = false := by
  cases l with
  | nil => rfl
  | cons b t =>
    unfold hasPair at h
    split at h
    · exact absurd h (by simp)
    · exact h

lemma stepByte_first_OPEN (acc : List Nat) :
    stepByte .OPEN TERMINATING_FIRST_CHAR acc = (.CLOSE, acc, false) := rfl

lemma stepByte_first_CLOSE (acc : List Nat) :
    stepByte .CLOSE TERMINATING_FIRST_CHAR acc
      = (.CLOSE, acc ++ [TERMINATING_FIRST_CHAR], false) := rfl

lemma stepByte_second_OPEN (acc : List Nat) :
    stepByte .OPEN TERMINATING_SECOND_CHAR acc
      = (.OPEN, acc ++ [TERMINATING_SECOND_CHAR], false) := rfl

lemma stepByte_second_CLOSE (acc : List Nat) :
    stepByte .CLOSE TERMINATING_SECOND_CHAR acc = (.CLOSE, acc, true) := rfl

lemma stepByte_other_OPEN {b : Nat} (acc : List Nat)
    (hb7 : ¬ b = TERMINATING_FIRST_CHAR) (hb8 : ¬ b = TERMINATING_SECOND_CHAR) :
    stepByte .OPEN b acc = (.OPEN, acc ++ [b], false) := by
  unfold stepByte
  rw [if_neg hb7, if_neg hb8]

lemma stepByte_other_CLOSE {b : Nat} (acc : List Nat)
    (hb7 : ¬ b = TERMINATING_FIRST_CHAR) (hb8 : ¬ b = TERMINATING_SECOND_CHAR) :
    stepByte .CLOSE b acc = (.OPEN, acc ++ [TERMINATING_FIRST_CHAR, b], false) := by
  unfold stepByte
  rw [if_neg hb7, if_neg hb8]

lemma readLoop_cons_eq {b : Nat} {rest : List Nat} {st : ReadMessageState}
    {m : Nat} {acc : List Nat} {maxMsgSize : Nat} {st' : ReadMessageState}
    {acc' : List Nat}
    (hw : m + 1 < 65536)
    (h1 : ¬ maxMsgSize + 2 < m + 1)
    (hsb : stepByte st b acc = (st', acc', false))
    (h2 : ¬ ((maxMsgSize + 1 = m + 1 ∧ st' = .OPEN) ∨ maxMsgSize + 2 = m + 1)) :
    readLoop (b :: rest) st m acc maxMsgSize
      = readLoop rest st' (m + 1) acc' maxMsgSize := by
  have hm : (m + 1) % 65536 = m + 1 := Nat.mod_eq_of_lt hw
  simp only [readLoop, hm]
  rw [if_neg h1, hsb]
  exact if_neg h2

lemma readLoop_cons_done {b : Nat} {rest : List Nat} {st : ReadMessageState}
    {m : Nat} {acc : List Nat} {maxMsgSize : Nat} {st' : ReadMessageState}
    {acc' : List Nat}
    (hw : m + 1 < 65536)
    (h1 : ¬ maxMsgSize + 2 < m + 1)
    (hsb : stepByte st b acc = (st', acc', true)) :
    readLoop (b :: rest) st m acc maxMsgSize = .ok acc' rest := by
  have hm : (m + 1) % 65536 = m + 1 := Nat.mod_eq_of_lt hw
  simp only [readLoop, hm]
  rw [if_neg h1, hsb]

lemma readLoop_cons_err {b : Nat} {rest : List Nat} {st : ReadMessageState}
    {m : Nat} {acc : List Nat} {maxMsgSize : Nat} {st' : ReadMessageState}
    {acc' : List Nat}
    (hw : m + 1 < 65536)
    (h1 : ¬ maxMsgSize + 2 < m + 1)
    (hsb : stepByte st b acc = (st', acc', false))
    (h2 : (maxMsgSize + 1 = m + 1 ∧ st' = .OPEN) ∨ maxMsgSize + 2 = m + 1) :
    readLoop (b :: rest) st m acc maxMsgSize = .err301 := by
  have hm : (m + 1) % 65536 = m + 1 := Nat.mod_eq_of_lt hw
  simp only [readLoop, hm]
  rw [if_neg h1, hsb]
  exact if_pos h2

lemma not_abort_close {maxMsgSize m : Nat} (h : ¬ maxMsgSize + 2 = m + 1) :
    ¬ ((maxMsgSize + 1 = m + 1 ∧ ReadMessageState.CLOSE = ReadMessageState.OPEN)
        ∨ maxMsgSize + 2 = m + 1) := by
  rintro (⟨-, hc⟩ | hc)
  · exact ReadMessageState.noConfusion hc
  · exact h hc

lemma not_abort_open {maxMsgSize m : Nat} (h1 : ¬ maxMsgSize + 1 = m + 1)
    (h2 : ¬ maxMsgSize + 2 = m + 1) :
    ¬ ((maxMsgSize + 1 = m + 1 ∧ ReadMessageState.OPEN = ReadMessageState.OPEN)
        ∨ maxMsgSize + 2 = m + 1) := by
  rintro (⟨hc, -⟩ | hc)
  · exact h1 hc
  · exact h2 hc

lemma readLoop_roundtrip (maxMsgSize : Nat) :
    ∀ (p : List Nat) (st : ReadMessageState) (m : Nat) (acc : List Nat),
      hasPair (pend st ++ p) = false →
      m + p.length ≤ maxMsgSize →
      m + p.length + 2 ≤ 65535 →
      readLoop (p ++ [TERMINATING_FIRST_CHAR, TERMINATING_SECOND_CHAR]) st m acc maxMsgSize
        = .ok (acc ++ (pend st ++ p)) [] := by
  intro p
  induction p with
  | nil =>
    intro st m acc _hnp hm hw
    simp only [List.length_nil, add_zero] at hm hw
    cases st with
    | OPEN =>
      rw [List.nil_append, readLoop_cons_eq (by omega) (by omega) (stepByte_first_OPEN acc)
          (not_abort_close (by omega)),
        readLoop_cons_done (by omega) (by omega) (stepByte_second_CLOSE acc)]
      simp [pend]
    | CLOSE =>
      rw [List.nil_append, readLoop_cons_eq (by omega) (by omega) (stepByte_first_CLOSE acc)
          (not_abort_close (by omega)),
        readLoop_cons_done (by omega) (by omega)
          (stepByte_second_CLOSE (acc ++ [TERMINATING_FIRST_CHAR]))]
      simp [pend]
  | cons b q ih =>
    intro st m acc hnp hm hw
    simp only [List.length_cons] at hm hw
    rw [List.cons_append]
    by_cases hb7 : b = TERMINATING_FIRST_CHAR
    · subst hb7
      cases st with
      | OPEN =>
        have hnp' : hasPair (pend .CLOSE ++ q) = false := by
          simpa [pend] using hnp
        rw [readLoop_cons_eq (by omega) (by omega) (stepByte_first_OPEN acc)
            (not_abort_close (by omega)),
          ih .CLOSE (m + 1) acc hnp' (by omega) (by omega)]
        simp [pend]
      | CLOSE =>
        have hnp' : hasPair (pend .CLOSE ++ q) = false := by
          simp only [pend, List.singleton_append] at hnp ⊢
          exact hasPair_cons_false hnp
        rw [readLoop_cons_eq (by omega) (by omega) (stepByte_first_CLOSE acc)
            (not_abort_close (by omega)),
          ih .CLOSE (m + 1) (acc ++ [TERMINATING_FIRST_CHAR]) hnp' (by omega) (by omega)]
        simp [pend]
    · by_cases hb8 : b = TERMINATING_SECOND_CHAR
      · subst hb8
        cases st with
        | OPEN =>
          have hnp' : hasPair (pend .OPEN ++ q) = false := by
            simp only [pend, List.nil_append] at hnp ⊢
            exact hasPair_cons_false hnp
          rw [readLoop_cons_eq (by omega) (by omega) (stepByte_second_OPEN acc)
              (not_abort_open (by omega) (by omega)),
            ih .OPEN (m + 1) (acc ++ [TERMINATING_SECOND_CHAR]) hnp' (by omega) (by omega)]
          simp [pend]
        | CLOSE =>
          exfalso
          simp [pend, hasPair, TERMINATING_FIRST_CHAR, TERMINATING_SECOND_CHAR] at hnp
      · cases st with
        | OPEN =>
          have hnp' : hasPair (pend .OPEN ++ q) = false := by
            simp only [pend, List.nil_append] at hnp ⊢
            exact hasPair_cons_false hnp
          rw [readLoop_cons_eq (by omega) (by omega) (stepByte_other_OPEN acc hb7 hb8)
              (not_abort_open (by omega) (by omega)),
            ih .OPEN (m + 1) (acc ++ [b]) hnp' (by omega) (by omega)]
          simp [pend]
        | CLOSE =>
          have hnp' : hasPair (pend .OPEN ++ q) = false := by
            simp only [pend, List.nil_append, List.singleton_append] at hnp ⊢
            exact hasPair_cons_false (hasPair_cons_false hnp)
          rw [readLoop_cons_eq (by omega) (by omega) (stepByte_other_CLOSE acc hb7 hb8)
              (not_abort_open (by omega) (by omega)),
            ih .OPEN (m + 1) (acc ++ [TERMINATING_FIRST_CHAR, b]) hnp' (by omega) (by omega)]
          simp [pend]

lemma readLoop_overflow (maxMsgSize : Nat) (hmax : maxMsgSize ≤ 65533) :
    ∀ (p : List Nat) (st : ReadMessageState) (m : Nat) (acc : List Nat),
      hasPair (pend st ++ p) = false →
      m ≤ maxMsgSize + 1 →
      maxMsgSize + 1 ≤ m + p.length →
      readLoop (p ++ [TERMINATING_FIRST_CHAR, TERMINATING_SECOND_CHAR]) st m acc maxMsgSize
        = .err301 := by
  intro p
  induction p with
  | nil =>
    intro st m acc _hnp hm hov
    simp only [List.length_nil, add_zero] at hov
    have hmeq : m = maxMsgSize + 1 := by omega
    subst hmeq
    cases st with
    | OPEN =>
      rw [List.nil_append]
      exact readLoop_cons_err (by omega) (by omega) (stepByte_first_OPEN acc)
        (Or.inr (by omega))
    | CLOSE =>
      rw [List.nil_append]
      exact readLoop_cons_err (by omega) (by omega) (stepByte_first_CLOSE acc)
        (Or.inr (by omega))
  | cons b q ih =>
    intro st m acc hnp hm hov
    simp only [List.length_cons] at hov
    rw [List.cons_append]
    by_cases hb7 : b = TERMINATING_FIRST_CHAR
    · subst hb7
      by_cases hq : maxMsgSize + 2 = m + 1
      · cases st with
        | OPEN =>
          exact readLoop_cons_err (by omega) (by omega) (stepByte_first_OPEN acc) (Or.inr hq)
        | CLOSE =>
          exact readLoop_cons_err (by omega) (by omega) (stepByte_first_CLOSE acc) (Or.inr hq)
      · cases st with
        | OPEN =>
          rw [readLoop_cons_eq (by omega) (by omega) (stepByte_first_OPEN acc)
            (not_abort_close hq)]
          exact ih .CLOSE (m + 1) acc (by simpa [pend] using hnp) (by omega) (by omega)
        | CLOSE =>
          rw [readLoop_cons_eq (by omega) (by omega) (stepByte_first_CLOSE acc)
            (not_abort_close hq)]
          refine ih .CLOSE (m + 1) (acc ++ [TERMINATING_FIRST_CHAR]) ?_ (by omega) (by omega)
          simp only [pend, List.singleton_append] at hnp ⊢
          exact hasPair_cons_false hnp
    · by_cases hb8 : b = TERMINATING_SECOND_CHAR
      · subst hb8
        cases st with
        | CLOSE =>
          exfalso
          simp [pend, hasPair, TERMINATING_FIRST_CHAR, TERMINATING_SECOND_CHAR] at hnp
        | OPEN =>
          by_cases hq : (maxMsgSize + 1 = m + 1 ∧ ReadMessageState.OPEN = ReadMessageState.OPEN)
              ∨ maxMsgSize + 2 = m + 1
          · exact readLoop_cons_err (by omega) (by omega) (stepByte_second_OPEN acc) hq
          · have hq2 : ¬ maxMsgSize + 2 = m + 1 := fun h => hq (Or.inr h)
            rw [readLoop_cons_eq (by omega) (by omega) (stepByte_second_OPEN acc) hq]
            refine ih .OPEN (m + 1) (acc ++ [TERMINATING_SECOND_CHAR]) ?_ (by omega) (by omega)
            simp only [pend, List.nil_append] at hnp ⊢
            exact hasPair_cons_false hnp
      · cases st with
        | OPEN =>
          by_cases hq : (maxMsgSize + 1 = m + 1 ∧ ReadMessageState.OPEN = ReadMessageState.OPEN)
              ∨ maxMsgSize + 2 = m + 1
          · exact readLoop_cons_err (by omega) (by omega) (stepByte_other_OPEN acc hb7 hb8) hq
          · have hq2 : ¬ maxMsgSize + 2 = m + 1 := fun h => hq (Or.inr h)
            rw [readLoop_cons_eq (by omega) (by omega) (stepByte_other_OPEN acc hb7 hb8) hq]
            refine ih .OPEN (m + 1) (acc ++ [b]) ?_ (by omega) (by omega)
            simp only [pend, List.nil_append] at hnp ⊢
            exact hasPair_cons_false hnp
        | CLOSE =>
          by_cases hq : (maxMsgSize + 1 = m + 1 ∧ ReadMessageState.OPEN = ReadMessageState.OPEN)
              ∨ maxMsgSize + 2 = m + 1
          · exact readLoop_cons_err (by omega) (by omega) (stepByte_other_CLOSE acc hb7 hb8) hq
          · have hq2 : ¬ maxMsgSize + 2 = m + 1 := fun h => hq (Or.inr h)
            rw [readLoop_cons_eq (by omega) (by omega) (stepByte_other_CLOSE acc hb7 hb8) hq]
            refine ih .OPEN (m + 1) (acc ++ [TERMINATING_FIRST_CHAR, b]) ?_ (by omega) (by omega)
            simp only [pend, List.nil_append, List.singleton_append] at hnp ⊢
            exact hasPair_cons_false (hasPair_cons_false hnp)

lemma stepByte_done_inv {st : ReadMessageState} {b : Nat} {acc : List Nat}
    {st' : ReadMessageState} {acc' : List Nat}
    (h : stepByte st b acc = (st', acc', true)) :
    st = .CLOSE ∧ acc' = acc := by
  cases st <;> unfold stepByte at h <;> split_ifs at h <;> simp_all

lemma stepByte_len {st : ReadMessageState} {b : Nat} {acc : List Nat}
    {st' : ReadMessageState} {acc' : List Nat}
    (h : stepByte st b acc = (st', acc', false)) :
    acc'.length + (pend st').length = acc.length + (pend st).length + 1 := by
  cases st <;> unfold stepByte at h <;> split_ifs at h <;>
    (injection h with h1 h2; injection h2 with h2 h3) <;> first
      | exact Bool.noConfusion h3
      | (subst h1; subst h2; simp [pend])

lemma specReadLoop_cons_eq {b : Nat} {rest : List Nat} {st : ReadMessageState}
    {n : Nat} {acc : List Nat} {maxPayload : Nat} {st' : ReadMessageState}
    {acc' : List Nat}
    (hsb : stepByte st b acc = (st', acc', false))
    (h2 : ¬ ((maxPayload + 1 = n + 1 ∧ st' = .OPEN) ∨ maxPayload + 2 = n + 1)) :
    specReadLoop (b :: rest) st n acc maxPayload
      = specReadLoop rest st' (n + 1) acc' maxPayload := by
  simp only [specReadLoop]
  rw [hsb]
  exact if_neg h2

lemma specReadLoop_cons_done {b : Nat} {rest : List Nat} {st : ReadMessageState}
    {n : Nat} {acc : List Nat} {maxPayload : Nat} {st' : ReadMessageState}
    {acc' : List Nat}
    (hsb : stepByte st b acc = (st', acc', true)) :
    specReadLoop (b :: rest) st n acc maxPayload = .ok acc' rest := by
  simp only [specReadLoop]
  rw [hsb]

lemma specReadLoop_cons_err {b : Nat} {rest : List Nat} {st : ReadMessageState}
    {n : Nat} {acc : List Nat} {maxPayload : Nat} {st' : ReadMessageState}
    {acc' : List Nat}
    (hsb : stepByte st b acc = (st', acc', false))
    (h2 : (maxPayload + 1 = n + 1 ∧ st' = .OPEN) ∨ maxPayload + 2 = n + 1) :
    specReadLoop (b :: rest) st n acc maxPayload = .err301 := by
  simp only [specReadLoop]
  rw [hsb]
  exact if_pos h2

lemma readLoop_eq_spec (maxMsgSize : Nat) (hmax : maxMsgSize ≤ 65533) :
    ∀ (input : List Nat) (st : ReadMessageState) (m : Nat) (acc : List Nat),
      m ≤ maxMsgSize + 1 →
      readLoop input st m acc maxMsgSize = specReadLoop input st m acc maxMsgSize := by
  intro input
  induction input with
  | nil =>
    intro st m acc hm
    have h1 : (m + 1) % 65536 = m + 1 := Nat.mod_eq_of_lt (by omega)
    simp only [readLoop, specReadLoop, h1]
    rw [if_neg (by omega)]
  | cons b rest ih =>
    intro st m acc hm
    rcases hsb : stepByte st b acc with ⟨st', acc', done⟩
    cases done with
    | true =>
      rw [readLoop_cons_done (by omega) (by omega) hsb, specReadLoop_cons_done hsb]
    | false =>
      by_cases hc : (maxMsgSize + 1 = m + 1 ∧ st' = ReadMessageState.OPEN)
          ∨ maxMsgSize + 2 = m + 1
      · rw [readLoop_cons_err (by omega) (by omega) hsb hc, specReadLoop_cons_err hsb hc]
      · have hq2 : ¬ maxMsgSize + 2 = m + 1 := fun h => hc (Or.inr h)
        rw [readLoop_cons_eq (by omega) (by omega) hsb hc, specReadLoop_cons_eq hsb hc]
        exact ih st' (m + 1) acc' (by omega)

lemma readLoop_ok_length (maxMsgSize : Nat) (hmax : maxMsgSize ≤ 65533) :
    ∀ (input : List Nat) (st : ReadMessageState) (m : Nat) (acc : List Nat)
      (payload rest : List Nat),
      m ≤ maxMsgSize + 1 →
      acc.length + (pend st).length = m →
      readLoop input st m acc maxMsgSize = .ok payload rest →
      payload.length ≤ maxMsgSize := by
  intro input
  induction input with
  | nil =>
    intro st m acc payload rest hm hinv hres
    simp only [readLoop] at hres
    split at hres <;> exact ReadResult.noConfusion hres
  | cons b rest0 ih =>
    intro st m acc payload rest hm hinv hres
    rcases hsb : stepByte st b acc with ⟨st', acc', done⟩
    cases done with
    | true =>
      obtain ⟨hcl, hacc⟩ := stepByte_done_inv hsb
      rw [readLoop_cons_done (by omega) (by omega) hsb] at hres
      injection hres with h1 h2
      subst hcl
      simp only [pend, List.length_cons, List.length_nil] at hinv
      subst h1
      subst hacc
      omega
    | false =>
      by_cases hc : (maxMsgSize + 1 = m + 1 ∧ st' = ReadMessageState.OPEN)
          ∨ maxMsgSize + 2 = m + 1
      · rw [readLoop_cons_err (by omega) (by omega) hsb hc] at hres
        exact ReadResult.noConfusion hres
      · have hq2 : ¬ maxMsgSize + 2 = m + 1 := fun h => hc (Or.inr h)
        rw [readLoop_cons_eq (by omega) (by omega) hsb hc] at hres
        exact ih st' (m + 1) acc' payload rest (by omega)
          (by rw [stepByte_len hsb, hinv]) hres

lemma readLoop_cons_wrap {b : Nat} {rest : List Nat} {st : ReadMessageState}
    {acc : List Nat} {maxMsgSize : Nat} {st' : ReadMessageState} {acc' : List Nat}
    (hsb : stepByte st b acc = (st', acc', false)) :
    readLoop (b :: rest) st 65535 acc maxMsgSize = readLoop rest st' 0 acc' maxMsgSize := by
  have hm : (65535 + 1) % 65536 = 0 := by norm_num
  simp only [readLoop, hm]
  rw [if_neg (by omega), hsb]
  exact if_neg (by rintro (⟨hc, -⟩ | hc) <;> omega)

lemma readLoop_run_normal : ∀ (n m : Nat) (acc rest : List Nat),
    m + n ≤ 65534 →
    readLoop (List.replicate n 97 ++ rest) .OPEN m acc 65534
      = readLoop rest .OPEN (m + n) (acc ++ List.replicate n 97) 65534 := by
  intro n
  induction n with
  | zero =>
    intro m acc rest _
    simp
  | succ k ih =>
    intro m acc rest h
    rw [List.replicate_succ, List.cons_append]
    rw [readLoop_cons_eq (by omega) (by omega)
        (stepByte_other_OPEN acc (by decide) (by decide))
        (not_abort_open (by omega) (by omega)),
      ih (m + 1) (acc ++ [97]) rest (by omega)]
    have e1 : m + 1 + k = m + (k + 1) := by omega
    have e2 : (acc ++ [97]) ++ List.replicate k 97 = acc ++ 97 :: List.replicate k 97 := by
      simp
    rw [e1, e2]

/-- C8 counterexample: the msgLength counter is a uint16_t, so for
maxMsgSize 65534 the counter wraps and the size checks are bypassed: a frame
of 65538 wire bytes is accepted and the reader returns a payload of
65536 bytes, larger than the cap, after consuming 65536 bytes without
completing and without aborting. -/
theorem readFromSocket_wrap_counterexample :
    readFromSocket (List.replicate 65534 97
        ++ [TERMINATING_FIRST_CHAR, 97, TERMINATING_FIRST_CHAR, TERMINATING_SECOND_CHAR]) 65534
      = .ok (List.replicate 65534 97 ++ [TERMINATING_FIRST_CHAR, 97]) [] ∧
    65534 < (List.replicate 65534 97 ++ [TERMINATING_FIRST_CHAR, 97]).length := by
  constructor
  · show readLoop _ .OPEN 0 [] 65534 = _
    rw [readLoop_run_normal 65534 0 []
      [TERMINATING_FIRST_CHAR, 97, TERMINATING_FIRST_CHAR, TERMINATING_SECOND_CHAR] (by omega)]
    rw [List.nil_append, Nat.zero_add]
    rw [readLoop_cons_eq (by omega) (by omega)
      (stepByte_first_OPEN (List.replicate 65534 97)) (not_abort_close (by omega))]
    rw [readLoop_cons_wrap (stepByte_other_CLOSE (List.replicate 65534 97)
      (by decide) (by decide))]
    rw [readLoop_cons_eq (by omega) (by omega)
      (stepByte_first_OPEN (List.replicate 65534 97 ++ [TERMINATING_FIRST_CHAR, 97]))
      (not_abort_close (by omega))]
    rw [readLoop_cons_done (by omega) (by omega)
      (stepByte_second_CLOSE (List.replicate 65534 97 ++ [TERMINATING_FIRST_CHAR, 97]))]
  · rw [List.length_append, List.length_replicate]
    norm_num

/-- C8 amended: for every input byte stream and every maxMsgSize up to 65533
(in particular all caps the program uses, which are at most 98), the reader
never returns a payload longer than the cap, and it behaves exactly like the
reader whose aborts are precisely the two specified triggers.  For
maxMsgSize 65534 the uint16_t byte counter wraps and both guarantees fail. -/
theorem readFromSocket_size_policy (input : List Nat) (maxMsgSize : Nat)
    (hmax : maxMsgSize ≤ 65533) :
    (∀ payload rest, readFromSocket input maxMsgSize = .ok payload rest →
      payload.length ≤ maxMsgSize) ∧
    readFromSocket input maxMsgSize = readFrameSpec input maxMsgSize := by
  constructor
  · intro payload rest h
    exact readLoop_ok_length maxMsgSize hmax input .OPEN 0 [] payload rest (by omega)
      (by simp [pend]) h
  · exact readLoop_eq_spec maxMsgSize hmax input .OPEN 0 [] (by omega)

/-- C8 amended witness: instantiation at the stream 65, \a, \b, 99 with cap 3;
the frame received is the one-byte payload 65, within the cap. -/
theorem readFromSocket_size_policy_witness :
    readFromSocket [65, 7, 8, 99] 3 = readFrameSpec [65, 7, 8, 99] 3 ∧
    ([65] : List Nat).length ≤ 3 :=
  ⟨(readFromSocket_size_policy [65, 7, 8, 99] 3 (by norm_num)).2,
   (readFromSocket_size_policy [65, 7, 8, 99] 3 (by norm_num)).1 [65] [99] (by decide)⟩

/-- C7: codec round trip.  For every payload p without the two-byte terminator
sequence as a contiguous pair (lone first- or second-terminator bytes are
allowed anywhere, including at the end), reading a frame from the wire bytes
produced by sendResponse yields exactly p, for every sufficient cap
(any maxMsgSize at least the payload length; the payload must fit a frame,
below the 16-bit byte counter). -/
theorem readFromSocket_sendResponse_roundtrip (p : List Nat) (maxMsgSize : Nat)
    (hnp : hasPair p = false) (hlen : p.length ≤ maxMsgSize) (hfit : p.length ≤ 65533) :
    readFromSocket (sendResponse p) maxMsgSize = .ok p [] := by
  unfold readFromSocket sendResponse
  have h := readLoop_roundtrip maxMsgSize p .OPEN 0 [] (by simpa [pend] using hnp)
    (by omega) (by omega)
  simpa [pend] using h

/-- C7 witness: the payload 72, \a, 105 (containing a lone first terminator
byte) round trips at the secret-message cap. -/
theorem readFromSocket_sendResponse_roundtrip_witness :
    readFromSocket (sendResponse [72, 7, 105]) CLIENT_MESSAGE_LENGTH = .ok [72, 7, 105] [] :=
  readFromSocket_sendResponse_roundtrip [72, 7, 105] CLIENT_MESSAGE_LENGTH
    (by decide) (by decide) (by decide)

/-- C1 counterexample: a username payload of exactly 18 bytes is not accepted;
the reader aborts with 301 SYNTAX ERROR because the cap used by authenticate
is CLIENT_USERNAME_LENGTH = 10, not 18 (a 19-byte payload aborts as well). -/
theorem username_18_bytes_rejected :
    readFromSocket (sendResponse (List.replicate 18 97)) CLIENT_USERNAME_LENGTH = .err301 ∧
    readFromSocket (sendResponse (List.replicate 19 97)) CLIENT_USERNAME_LENGTH = .err301 := by
  decide

/-- C1 amended: the username frame is read with payload cap
CLIENT_USERNAME_LENGTH = 10 bytes: a username payload of up to exactly 10
bytes is accepted, and any longer payload — in particular one of 18 or of 19
bytes — causes 301 SYNTAX ERROR and session termination. -/
theorem username_cap_is_ten (p : List Nat) (hnp : hasPair p = false) :
    (p.length ≤ CLIENT_USERNAME_LENGTH →
      readFromSocket (sendResponse p) CLIENT_USERNAME_LENGTH = .ok p []) ∧
    (CLIENT_USERNAME_LENGTH < p.length →
      readFromSocket (sendResponse p) CLIENT_USERNAME_LENGTH = .err301) := by
  have h10 : CLIENT_USERNAME_LENGTH = 10 := rfl
  constructor
  · intro hlen
    unfold readFromSocket sendResponse
    have h := readLoop_roundtrip CLIENT_USERNAME_LENGTH p .OPEN 0 []
      (by simpa [pend] using hnp) (by omega) (by omega)
    simpa [pend] using h
  · intro hlen
    unfold readFromSocket sendResponse
    exact readLoop_overflow CLIENT_USERNAME_LENGTH (by omega) p .OPEN 0 []
      (by simpa [pend] using hnp) (by omega) (by omega)

/-- C1 amended witness: a 10-byte username is accepted and an 11-byte
username is rejected with 301. -/
theorem username_cap_is_ten_witness :
    readFromSocket (sendResponse (List.replicate 10 97)) CLIENT_USERNAME_LENGTH
      = .ok (List.replicate 10 97) [] ∧
    readFromSocket (sendResponse (List.replicate 11 97)) CLIENT_USERNAME_LENGTH = .err301 :=
  ⟨(username_cap_is_ten (List.replicate 10 97) (by decide)).1 (by decide),
   (username_cap_is_ten (List.replicate 11 97) (by decide)).2 (by decide)⟩

/-- Outcome of the confirmation handling in ClientController::authenticate.
`stoiInvalidArg` models the std::invalid_argument exception that std::stoi
throws on an empty string: no frame is sent and the exception escapes the
session handler, which catches only std::runtime_error. -/
inductive AuthOutcome where
  | ok200
  | loginFailed300
  | err301
  | stoiInvalidArg
deriving DecidableEq, Repr

/-- Embedding of the confirmation validation of ClientController::authenticate:
a payload longer than 5 characters gets 301; a non-digit character gets 301;
then std::stoi parses the (all-digit) string - throwing std::invalid_argument
when it is empty - and the value is cast to uint16_t (reduced mod 2^16) and
compared with computeHash(CLIENT_KEY, userName): mismatch gets
300 LOGIN FAILED, match gets 200 OK. -/
def authConfirm (userName clientHash : List Nat) : AuthOutcome :=
  if 5 < clientHash.length then .err301
  else if clientHash.any (fun c => !(48 ≤ c && c ≤ 57)) then .err301
  else if clientHash.isEmpty then .stoiInvalidArg
  else if (clientHash.foldl (fun a d => a * 10 + (d - 48)) 0) % 65536
      ≠ computeHash CLIENT_KEY userName then .loginFailed300
  else .ok200

/-- C3: the confirmation checks send 301 for a non-digit character and for a
payload longer than 5 characters, but an empty confirmation reaches
std::stoi, which throws std::invalid_argument: no 301 is sent and the
exception bypasses the catch of std::runtime_error, so the claim fails in
the empty case (evaluated here for username "Ab", confirmations empty,
"abc" and "000000"). -/
theorem authConfirm_empty_uncaught :
    authConfirm [65, 98] [] = .stoiInvalidArg ∧
    authConfirm [65, 98] [97, 98, 99] = .err301 ∧
    authConfirm [65, 98] [48, 48, 48, 48, 48, 48] = .err301 := by
  decide

/-- C4 counterexample: the username consisting of the single byte 21 has
expected client hash 792; the five-digit confirmation "66328"
(66328 = 792 + 65536) is accepted with 200 OK although its decimal value
differs from the hash, because the uint16_t cast reduces it mod 65536. -/
theorem authConfirm_congruent_accepted :
    authConfirm [21] [54, 54, 51, 50, 56] = .ok200 ∧
    (66328 : Nat) ≠ computeHash CLIENT_KEY [21] := by
  decide

/-- C4 amended: for every well-formed confirmation (1 to 5 decimal digits),
the parsed decimal value is reduced mod 65536 by the uint16_t cast and
200 OK is sent if and only if the reduced value equals
computeHash(CLIENT_KEY, username) (otherwise 300 LOGIN FAILED); hence a 5-digit
confirmation whose decimal value exceeds 65535 is accepted whenever it is
congruent to the expected hash mod 65536. -/
theorem authConfirm_ok_iff (userName clientHash : List Nat)
    (hlen : clientHash.length ≤ 5) (hne : clientHash ≠ [])
    (hdig : ∀ c ∈ clientHash, 48 ≤ c ∧ c ≤ 57) :
    authConfirm userName clientHash = .ok200 ↔
      (clientHash.foldl (fun a d => a * 10 + (d - 48)) 0) % 65536
        = computeHash CLIENT_KEY userName := by
  unfold authConfirm
  have hd : ¬ (clientHash.any (fun c => !(48 ≤ c && c ≤ 57)) = true) := by
    rw [List.any_eq_true]
    rintro ⟨c, hc, hf⟩
    have hcd := hdig c hc
    simp at hf
    omega
  have he : ¬ (clientHash.isEmpty = true) := by
    cases clientHash with
    | nil => exact absurd rfl hne
    | cons c t => simp
  rw [if_neg (by omega), if_neg hd, if_neg he]
  constructor
  · intro h
    by_contra hv
    rw [if_pos hv] at h
    exact AuthOutcome.noConfusion h
  · intro hv
    rw [if_neg (not_not_intro hv)]

/-- C4 amended witness: username "Ab" has client hash 11720 and the
confirmation "11720" is accepted. -/
theorem authConfirm_ok_iff_witness :
    authConfirm [65, 98] [49, 49, 55, 50, 48] = .ok200 ↔
      (([49, 49, 55, 50, 48] : List Nat).foldl (fun a d => a * 10 + (d - 48)) 0) % 65536
        = computeHash CLIENT_KEY [65, 98] :=
  authConfirm_ok_iff [65, 98] [49, 49, 55, 50, 48] (by decide) (by decide) (by decide)

/-- Kinds of C++ exceptions thrown by the controller. -/
inductive CppException where
  | runtimeError
  | logicError
deriving DecidableEq, Repr

/-- Embedding of ClientController::updateDirection.  When both coordinates
changed between the two positions, the source throws std::logic_error
directly; the error value carries the exception kind together with the list
of frames sent before the throw, which is empty: the source sends nothing on
this path. -/
def updateDirection (lastPosition newPosition : Position) :
    Except (CppException × List String) Direction :=
  if lastPosition.x = newPosition.x then
    if lastPosition.y < newPosition.y then .ok .UP else .ok .DOWN
  else if lastPosition.y = newPosition.y then
    if lastPosition.x < newPosition.x then .ok .RIGHT else .ok .LEFT
  else .error (.logicError, [])

/-- Whether the try block of ClientController::handleClientConnection catches
an exception of the given kind: its only handler is
catch (const std::runtime_error) -/
def handledBySession : CppException → Bool
  | .runtimeError => true
  | .logicError => false

/-- C5 counterexample: for the successive positions (0,0) and (1,1) - both
axes changed - updateDirection throws std::logic_error having sent no frame
at all (in particular no 302 LOGIC ERROR), and the session handler does not
catch std::logic_error. -/
theorem updateDirection_no_302 :
    updateDirection ⟨0, 0⟩ ⟨1, 1⟩ = .error (.logicError, []) ∧
    handledBySession .logicError = false :=
  ⟨by unfold updateDirection; rw [if_neg (by decide), if_neg (by decide)], rfl⟩

/-- C5 amended: for every pair of successive positions in which both the x
and the y coordinate changed, the session fails with std::logic_error, but no
302 LOGIC ERROR (nor any other frame) is sent to the client, and the
exception bypasses the session handler, which catches only
std::runtime_error. -/
theorem updateDirection_both_axes (p q : Position) (hx : p.x ≠ q.x) (hy : p.y ≠ q.y) :
    updateDirection p q = .error (.logicError, []) ∧
    handledBySession .logicError = false := by
  unfold updateDirection
  rw [if_neg hx, if_neg hy]
  exact ⟨rfl, rfl⟩

/-- C5 amended witness: instantiation at the positions (0,0) and (2,3). -/
theorem updateDirection_both_axes_witness :
    updateDirection ⟨0, 0⟩ ⟨2, 3⟩ = .error (.logicError, []) ∧
    handledBySession .logicError = false :=
  updateDirection_both_axes ⟨0, 0⟩ ⟨2, 3⟩ (by decide) (by decide)

/-- The value (position.x - TARGET_X) % 5 of the scan loop; C++ % truncates
toward zero, embedded as Int.tmod. -/
def scanX (p : Position) : Int := (p.x - TARGET_X).tmod 5

/-- The value (position.y - TARGET_Y) * -1 of the scan loop. -/
def scanY (p : Position) : Int := (p.y - TARGET_Y) * (-1)

/-- The serpentine step index the scan loop computes from the current
position: step = y * 5 plus (4 - x) on odd rows, x on even rows. -/
def stepOf (p : Position) : Int :=
  scanY p * 5 + (if (scanY p).tmod 2 ≠ 0 then 4 - scanX p else scanX p)

/-- The next target the scan loop computes after incrementing the step:
x from step mod 5 (mirrored on odd rows) shifted by TARGET_X, and
y = TARGET_Y - step / 5; C++ / truncates toward zero, embedded as Int.tdiv. -/
def nextTarget (p : Position) : Position :=
  { x := if ((stepOf p + 1).tdiv 5).tmod 2 ≠ 0
         then 4 - (stepOf p + 1).tmod 5 + TARGET_X
         else (stepOf p + 1).tmod 5 + TARGET_X,
    y := TARGET_Y - (stepOf p + 1).tdiv 5 }

/-- The 5x5 patch with corners (-2, 2) and (2, -2). -/
def inPatch (p : Position) : Prop :=
  -2 ≤ p.x ∧ p.x ≤ 2 ∧ -2 ≤ p.y ∧ p.y ≤ 2

instance inPatch_decidable (p : Position) : Decidable (inPatch p) :=
  inferInstanceAs (Decidable (-2 ≤ p.x ∧ p.x ≤ 2 ∧ -2 ≤ p.y ∧ p.y ≤ 2))

/-- C6 counterexample: the cell (2, -2) has step index 24 - the last cell of
the sweep - yet after its pick_up returns empty, the loop computes step 25
and the next target (2, -3), which lies outside the 5x5 patch: the scanner
does not fail once the step exceeds 24, it navigates off the patch. -/
theorem scan_continues_off_patch :
    stepOf ⟨2, -2⟩ = 24 ∧ nextTarget ⟨2, -2⟩ = ⟨2, -3⟩ ∧ ¬ inPatch ⟨2, -3⟩ := by
  decide

/-- C6 amended: the scan loop has no NotFound failure.  For every position in
the patch whose step index is below 24, the next computed target stays inside
the patch; from the step-24 cell the next computed target is (2, -3), outside
the patch, and the scanner keeps navigating there instead of failing. -/
theorem scan_next_target (p : Position) (hp : inPatch p) :
    (stepOf p < 24 → inPatch (nextTarget p)) ∧
    (stepOf p = 24 → nextTarget p = ⟨2, -3⟩ ∧ ¬ inPatch (nextTarget p)) := by
  obtain ⟨x, y⟩ := p
  obtain ⟨h1, h2, h3, h4⟩ := hp
  dsimp only at h1 h2 h3 h4
  interval_cases x <;> interval_cases y <;> decide

/-- C6 amended witness: instantiation at the cell (0, 2), step 2, whose next
target stays in the patch. -/
theorem scan_next_target_witness : inPatch (nextTarget ⟨0, 2⟩) :=
  (scan_next_target ⟨0, 2⟩ (by decide)).1 (by decide)

/-- Numeric encoding of the Direction enum values. -/
def dirCode : Direction → Int
  | .UNKNOWN => 0
  | .UP => 1
  | .RIGHT => 2
  | .DOWN => 3
  | .LEFT => 4

/-- Heading update of ClientController::rotateRight: the UNKNOWN case of the
switch leaves the heading unchanged. -/
def rotateRightDir : Direction → Direction
  | .UP => .RIGHT
  | .RIGHT => .DOWN
  | .DOWN => .LEFT
  | .LEFT => .UP
  | .UNKNOWN => .UNKNOWN

/-- Heading update of ClientController::rotateLeft. -/
def rotateLeftDir : Direction → Direction
  | .UP => .LEFT
  | .RIGHT => .UP
  | .DOWN => .RIGHT
  | .LEFT => .DOWN
  | .UNKNOWN => .UNKNOWN

/-- Fuel-bounded embedding of the recursive ClientController::rotateTo: while
the heading differs from the goal, one right turn is issued when
goal - heading > 0 and one left turn otherwise, then rotateTo recurses.
Returns none when the recursion does not finish within the fuel. -/
def rotateToFuel : Nat → Direction → Direction → Option Direction
  | 0, d, goal => if d = goal then some d else none
  | n + 1, d, goal =>
      if d = goal then some d
      else rotateToFuel n
        (if 0 < dirCode goal - dirCode d then rotateRightDir d else rotateLeftDir d) goal

/-- The turn commands rotateTo sends within the given fuel. -/
def rotateToCmds : Nat → Direction → Direction → List String
  | 0, _, _ => []
  | n + 1, d, goal =>
      if d = goal then []
      else if 0 < dirCode goal - dirCode d then
        SERVER_TURN_RIGHT :: rotateToCmds n (rotateRightDir d) goal
      else
        SERVER_TURN_LEFT :: rotateToCmds n (rotateLeftDir d) goal

/-- The rotation goal ClientController::navigate picks: down or up when the y
coordinates differ, then right or left on the x coordinates. -/
def navigateRotTarget (pos target : Position) : Direction :=
  if 0 < pos.y - target.y then .DOWN
  else if pos.y - target.y < 0 then .UP
  else if pos.x - target.x < 0 then .RIGHT
  else .LEFT

/-- C10: rotateTo invoked with the heading still UNKNOWN (code 0) and any
goal heading never terminates: goal - 0 > 0 always selects a right turn, the
UNKNOWN case of the rotateRight switch leaves the heading UNKNOWN, and the
recursion re-enters with unchanged state, emitting 104 TURN RIGHT at every
step (fuel steps produce exactly fuel copies).  The situation is reachable:
at the target (-2, 2) - where heading inference was skipped - an empty
pick_up gives step 0, next target (-1, 2), and navigate then calls
rotateTo(RIGHT). -/
theorem rotateTo_unknown_diverges (fuel : Nat) (goal : Direction) (h : goal ≠ .UNKNOWN) :
    rotateToFuel fuel .UNKNOWN goal = none ∧
    rotateToCmds fuel .UNKNOWN goal = List.replicate fuel SERVER_TURN_RIGHT ∧
    stepOf ⟨-2, 2⟩ = 0 ∧ nextTarget ⟨-2, 2⟩ = ⟨-1, 2⟩ ∧
    navigateRotTarget ⟨-2, 2⟩ ⟨-1, 2⟩ = .RIGHT := by
  have hpos : 0 < dirCode goal - dirCode .UNKNOWN := by
    cases goal
    · exact absurd rfl h
    all_goals decide
  have hne : Direction.UNKNOWN ≠ goal := fun e => h e.symm
  refine ⟨?_, ?_, by decide, by decide, by decide⟩
  · induction fuel with
    | zero => simp [rotateToFuel, hne]
    | succ n ih =>
      simp only [rotateToFuel, if_neg hne, if_pos hpos]
      exact ih
  · induction fuel with
    | zero => simp [rotateToCmds]
    | succ n ih =>
      simp only [rotateToCmds, if_neg hne, if_pos hpos]
      rw [List.replicate_succ]
      exact congrArg _ ih

/-- C10 witness: with goal RIGHT and fuel 3 the rotation does not finish and
emits three 104 TURN RIGHT commands. -/
theorem rotateTo_unknown_diverges_witness :
    rotateToFuel 3 .UNKNOWN .RIGHT = none ∧
    rotateToCmds 3 .UNKNOWN .RIGHT = List.replicate 3 SERVER_TURN_RIGHT ∧
    stepOf ⟨-2, 2⟩ = 0 ∧ nextTarget ⟨-2, 2⟩ = ⟨-1, 2⟩ ∧
    navigateRotTarget ⟨-2, 2⟩ ⟨-1, 2⟩ = .RIGHT :=
  rotateTo_unknown_diverges 3 .RIGHT (by decide)

/-- One call to readFromSocketWithWait, recorded as the payload cap and the
receive timeout (in seconds) configured for it. -/
structure ReadCall where
  cap : Nat
  timeout : Nat
deriving DecidableEq, Repr

/-- Result of ClientController::readMsg at the frame level. -/
inductive MsgResult where
  | ok (msg : String) (rest : List String)
  | err302
  | timeout
deriving DecidableEq, Repr

/-- Embedding of ClientController::readMsg over the list of successive frames
the codec delivers.  Each readFromSocketWithWait call consumes one frame and
is recorded as a ReadCall; the first read uses the caller cap and the short
timeout.  When the frame is RECHARGING, a second read is issued with cap
CLIENT_FULL_POWER_LENGTH under TIMEOUT_RECHARGING; if that frame is not
FULL POWER the wrapper sends 302 LOGIC ERROR (third component) and throws;
otherwise readMsg recurses with the original cap.  An exhausted frame list
models a timeout (no bytes within the configured timeout). -/
def readMsg (maxMsgSize : Nat) : List String → MsgResult × List ReadCall × List String
  | [] => (.timeout, [⟨maxMsgSize, TIMEOUT⟩], [])
  | message :: rest =>
      if message = CLIENT_RECHARGING then
        match rest with
        | [] => (.timeout,
            [⟨maxMsgSize, TIMEOUT⟩, ⟨CLIENT_FULL_POWER_LENGTH, TIMEOUT_RECHARGING⟩], [])
        | m2 :: rest2 =>
            if m2 = CLIENT_FULL_POWER then
              let r := readMsg maxMsgSize rest2
              (r.1,
               ⟨maxMsgSize, TIMEOUT⟩ :: ⟨CLIENT_FULL_POWER_LENGTH, TIMEOUT_RECHARGING⟩
                 :: r.2.1,
               r.2.2)
            else (.err302,
                [⟨maxMsgSize, TIMEOUT⟩, ⟨CLIENT_FULL_POWER_LENGTH, TIMEOUT_RECHARGING⟩],
                [SERVER_LOGIC_ERROR])
      else (.ok message rest, [⟨maxMsgSize, TIMEOUT⟩], [])

lemma readMsg_first_call (maxMsgSize : Nat) (frames : List String) :
    (readMsg maxMsgSize frames).2.1.head? = some ⟨maxMsgSize, TIMEOUT⟩ := by
  cases frames with
  | nil => rfl
  | cons m rest =>
    rw [readMsg.eq_def]
    dsimp only
    cases rest with
    | nil =>
      split
      · rfl
      · rfl
    | cons m2 rest2 =>
      split
      · dsimp only
        split
        · rfl
        · rfl
      · rfl

/-- C9: the recharging substitution of readMsg.  For every read issued with
cap m on a frame list starting with RECHARGING: the second read is issued
with cap CLIENT_FULL_POWER_LENGTH = 10 under the extended timeout; if the
second frame is not exactly FULL POWER the wrapper sends 302 LOGIC ERROR and
terminates, acting on no other frame; and if it is FULL POWER, the original
read is re-issued with the original cap m under the restored short timeout,
the result being exactly the result on the remaining frames - the
substitution is invisible to the caller. -/
theorem readMsg_recharging (maxMsgSize : Nat) (m2 : String) (rest2 : List String) :
    ((readMsg maxMsgSize (CLIENT_RECHARGING :: m2 :: rest2)).2.1.take 2
        = [⟨maxMsgSize, TIMEOUT⟩, ⟨CLIENT_FULL_POWER_LENGTH, TIMEOUT_RECHARGING⟩]) ∧
    (m2 ≠ CLIENT_FULL_POWER →
      readMsg maxMsgSize (CLIENT_RECHARGING :: m2 :: rest2)
        = (.err302,
            [⟨maxMsgSize, TIMEOUT⟩, ⟨CLIENT_FULL_POWER_LENGTH, TIMEOUT_RECHARGING⟩],
            [SERVER_LOGIC_ERROR])) ∧
    (m2 = CLIENT_FULL_POWER →
      readMsg maxMsgSize (CLIENT_RECHARGING :: m2 :: rest2)
        = ((readMsg maxMsgSize rest2).1,
            ⟨maxMsgSize, TIMEOUT⟩ :: ⟨CLIENT_FULL_POWER_LENGTH, TIMEOUT_RECHARGING⟩
              :: (readMsg maxMsgSize rest2).2.1,
            (readMsg maxMsgSize rest2).2.2) ∧
      (readMsg maxMsgSize rest2).2.1.head? = some ⟨maxMsgSize, TIMEOUT⟩) := by
  refine ⟨?_, ?_, ?_⟩
  · rw [readMsg.eq_def]
    dsimp only
    rw [if_pos rfl]
    by_cases h2 : m2 = CLIENT_FULL_POWER
    · rw [if_pos h2]
      rfl
    · rw [if_neg h2]
      rfl
  · intro h2
    rw [readMsg.eq_def]
    dsimp only
    rw [if_pos rfl, if_neg h2]
  · intro h2
    subst h2
    refine ⟨?_, readMsg_first_call maxMsgSize rest2⟩
    rw [readMsg.eq_def]
    dsimp only
    rw [if_pos rfl, if_pos rfl]

/-- C9 witness: a RECHARGING then FULL POWER exchange before an OK frame, at
the move-confirmation cap. -/
theorem readMsg_recharging_witness :
    readMsg CLIENT_OK_LENGTH [CLIENT_RECHARGING, CLIENT_FULL_POWER, "OK 0 0"]
      = ((readMsg CLIENT_OK_LENGTH ["OK 0 0"]).1,
          ⟨CLIENT_OK_LENGTH, TIMEOUT⟩ :: ⟨CLIENT_FULL_POWER_LENGTH, TIMEOUT_RECHARGING⟩
            :: (readMsg CLIENT_OK_LENGTH ["OK 0 0"]).2.1,
          (readMsg CLIENT_OK_LENGTH ["OK 0 0"]).2.2) :=
  ((readMsg_recharging CLIENT_OK_LENGTH CLIENT_FULL_POWER ["OK 0 0"]).2.2 rfl).1

end TcpServer
